import Mathlib

/-!
Verification development for the download-orchestration engine in
`src/src-tauri/src/plugins/downloader.rs` (GuteMusik).

The Rust code is shallowly embedded: each lock-scoped mutation of the shared
`DownloaderStateInner` becomes a pure function on an explicit state record,
external collaborators (MusicBrainz, yt-dlp, the filesystem, the id3 tagger)
become oracle parameters, and the thread structure (singleton drain-loop
worker, bounded per-album track workers) becomes small-step transition
systems over program-counter lists.
-/

namespace GuteMusik

/-- Mirrors Rust `AlbumRequest` (downloader.rs lines 31-38). -/
structure AlbumRequest where
  artist : String
  album : String
  year : String
  genre : String
  tracks : Option (List String)
deriving DecidableEq, Repr

/-- Mirrors Rust `SongRequest` (lines 40-48). -/
structure SongRequest where
  title : String
  artist : String
  album : String
  year : String
  genre : String
  track_num : Option Nat
deriving DecidableEq, Repr

/-- Mirrors Rust `ActiveTrack` (lines 77-82). -/
structure ActiveTrack where
  track_index : Nat
  track_name : String
  status : String
deriving DecidableEq, Repr

/-- Mirrors Rust `AlbumDownloadState` (lines 84-93). -/
structure AlbumDownloadState where
  artist : String
  album : String
  status : String
  completed_tracks : Nat
  total_tracks : Nat
  error : Option String
  active_tracks : List ActiveTrack
deriving DecidableEq, Repr

/-- Mirrors Rust `DownloadState` (lines 71-75). -/
structure DownloadState where
  is_active : Bool
  albums : List AlbumDownloadState
deriving DecidableEq, Repr

/-- Mirrors Rust `QueueItem` (lines 95-100). -/
inductive QueueItem where
  | album (req : AlbumRequest)
  | song (song : SongRequest) (video_id : String)
deriving DecidableEq, Repr

/-- The mutex-protected contents of `DownloaderStateInner` (lines 102-109)
that the sequential (one-operation-at-a-time) model manipulates.  The
`worker_running` flag lives in the thread-interleaving model `Sys` below. -/
structure InnerState where
  state : DownloadState
  cancel : Bool
  pending_queue : List QueueItem
deriving DecidableEq, Repr

/-- The initial state built by `DownloaderState::default()` (lines 114-126). -/
def initInner : InnerState :=
  { state := { is_active := false, albums := [] }, cancel := false, pending_queue := [] }

/-- The display label used for a single-song entry: `format!("{} (Single)", song.title)`
(lines 267, 329, 600). -/
def song_label (song : SongRequest) : String :=
  song.title ++ " (Single)"

/-- The fresh display entry pushed by `downloader_start` (lines 563-571). -/
def album_entry (a : AlbumRequest) : AlbumDownloadState :=
  { artist := a.artist, album := a.album, status := "pending",
    completed_tracks := 0, total_tracks := 0, error := none, active_tracks := [] }

/-- The fresh display entry pushed by `downloader_download_songs` (lines 598-606). -/
def song_entry (s : SongRequest) : AlbumDownloadState :=
  { artist := s.artist, album := song_label s, status := "pending",
    completed_tracks := 0, total_tracks := 1, error := none, active_tracks := [] }

/-- Point update of a list, a no-op when the index is out of range.
Used to embed the `s.albums[idx]` mutations done under the state lock. -/
def modifyIdx : Nat → (α → α) → List α → List α
  | _, _, [] => []
  | 0, f, a :: as => f a :: as
  | n + 1, f, a :: as => a :: modifyIdx n f as

/-- A status is terminal when it is one of complete / error / cancelled. -/
def terminalStatus (s : String) : Bool :=
  s == "complete" || s == "error" || s == "cancelled"

-- ───────────────────────────────────────────────────────────────────────────
-- Tauri commands (the lock-scoped state mutations they perform)
-- ───────────────────────────────────────────────────────────────────────────

/-- State effect of `downloader_start` (lines 552-583): append one pending
display entry per album and one queue item per album, set `is_active`.
(The `ensure_worker` call is modelled in the `Sys` transition system.) -/
def downloader_start (albums : List AlbumRequest) (st : InnerState) : InnerState :=
  { st with
    state := { is_active := true,
               albums := st.state.albums ++ albums.map album_entry },
    pending_queue := st.pending_queue ++ albums.map QueueItem.album }

/-- State effect of `downloader_download_songs` (lines 586-618): append one
pending display entry per song, but queue items only for `songs.zip video_ids`
(positional zip, truncating to the shorter list, line 611). -/
def downloader_download_songs (songs : List SongRequest) (video_ids : List String)
    (st : InnerState) : InnerState :=
  { st with
    state := { is_active := true,
               albums := st.state.albums ++ songs.map song_entry },
    pending_queue := st.pending_queue ++
      (songs.zip video_ids).map (fun p => QueueItem.song p.1 p.2) }

/-- State effect of `downloader_cancel` (lines 628-633): set the cancel flag. -/
def downloader_cancel (st : InnerState) : InnerState :=
  { st with cancel := true }

/-- State effect of `downloader_clear_finished` (lines 636-644): retain only
non-terminal display entries; if the result is empty, clear `is_active`. -/
def downloader_clear_finished (st : InnerState) : InnerState :=
  let albums' := st.state.albums.filter (fun a => !terminalStatus a.status)
  { st with
    state := { is_active := if albums'.isEmpty then false else st.state.is_active,
               albums := albums' } }

-- ───────────────────────────────────────────────────────────────────────────
-- Worker primitives (each one lock-scoped block of `ensure_worker`'s loop)
-- ───────────────────────────────────────────────────────────────────────────

/-- Progress/notification events emitted via `app.emit` (various lines). -/
inductive Event where
  | progress (artist album : String) (track_index total_tracks : Nat)
      (track_name status : String) (error : Option String)
  | albumComplete (artist album : String) (album_index total_albums : Nat)
  | downloadError (artist album err : String)
  | cancelledRun
  | allComplete
deriving DecidableEq, Repr

/-- The cancel branch of the drain loop (lines 235-254): drain the pending
queue, mark every pending/downloading album `cancelled`, clear `is_active`,
emit the dedicated `download-cancelled` notification. -/
def cancel_branch (st : InnerState) : InnerState × List Event :=
  ({ st with
     pending_queue := [],
     state := { is_active := false,
                albums := st.state.albums.map (fun a =>
                  if a.status == "pending" || a.status == "downloading"
                  then { a with status := "cancelled" } else a) } },
   [Event.cancelledRun])

/-- Rust `Iterator::position`: index of the first element satisfying `p`. -/
def position (p : α → Bool) : List α → Option Nat
  | [] => none
  | a :: as => if p a then some 0 else (position p as).map (· + 1)

/-- Index resolution for a dequeued item (lines 257-273): first display entry
matching artist, label, and status `pending`. -/
def resolve_index (item : QueueItem) (albums : List AlbumDownloadState) : Option Nat :=
  match item with
  | .album req => position (fun a =>
      a.artist == req.artist && a.album == req.album && a.status == "pending") albums
  | .song song _ => position (fun a =>
      a.artist == song.artist && a.album == song_label song && a.status == "pending") albums

/-- Lines 286-289: mark the resolved entry `downloading`. -/
def mark_downloading (idx : Nat) (s : DownloadState) : DownloadState :=
  { s with albums := modifyIdx idx (fun a => { a with status := "downloading" }) s.albums }

/-- Lines 294-297: record an album success. -/
def record_album_ok (idx : Nat) (s : DownloadState) : DownloadState :=
  { s with albums := modifyIdx idx (fun a => { a with status := "complete" }) s.albums }

/-- Lines 298-301: record an album failure. -/
def record_album_err (idx : Nat) (e : String) (s : DownloadState) : DownloadState :=
  { s with albums :=
      modifyIdx idx (fun a => { a with status := "error", error := some e }) s.albums }

/-- Lines 339-343: record a single-song success (also sets `completed_tracks = 1`). -/
def record_song_ok (idx : Nat) (s : DownloadState) : DownloadState :=
  { s with albums :=
      modifyIdx idx (fun a => { a with status := "complete", completed_tracks := 1 }) s.albums }

/-- Lines 344-347: record a single-song failure. -/
def record_song_err (idx : Nat) (e : String) (s : DownloadState) : DownloadState :=
  { s with albums :=
      modifyIdx idx (fun a => { a with status := "error", error := some e }) s.albums }

/-- `update_album_completed` (lines 710-715), bounds-checked as in the source. -/
def update_album_completed (s : DownloadState) (album_idx count : Nat) : DownloadState :=
  if album_idx < s.albums.length then
    { s with albums :=
        modifyIdx album_idx (fun a => { a with completed_tracks := count }) s.albums }
  else s

-- ───────────────────────────────────────────────────────────────────────────
-- Filenames (sanitize_filename, the `{:02}` padding, the track path)
-- ───────────────────────────────────────────────────────────────────────────

/-- Rust `str::trim`: drop leading and trailing whitespace (stated over the
character list so that it evaluates structurally). -/
def rust_trim (s : String) : String :=
  String.mk (((s.data.dropWhile Char.isWhitespace).reverse.dropWhile
    Char.isWhitespace).reverse)

/-- Mirrors `sanitize_filename` (lines 668-677): replace the nine reserved
characters with `-`, then trim surrounding whitespace. -/
def sanitize_filename (name : String) : String :=
  rust_trim (String.mk (name.data.map (fun c =>
    if c ∈ ['/', '\\', ':', '*', '?', '"', '<', '>', '|'] then '-' else c)))

/-- Rust's `format!("{:02}", n)`: left-pad the decimal form to width 2. -/
def pad2 (n : Nat) : String :=
  let s := toString n
  if s.length < 2 then "0" ++ s else s

/-- The destination path of a track (lines 780-783):
`album_dir/{:02 of idx+1}-{sanitized name}.mp3`. -/
def track_filepath (album_dir : String) (track_idx : Nat) (track_name : String) : String :=
  album_dir ++ "/" ++ pad2 (track_idx + 1) ++ "-" ++ sanitize_filename track_name ++ ".mp3"

-- ───────────────────────────────────────────────────────────────────────────
-- fetch_cover (lines 1126-1159)
-- ───────────────────────────────────────────────────────────────────────────

/-- Oracle for one `fetch_cover` call: the release-group id resolved by the
MusicBrainz search chain (lines 1132-1137; `none` when any `?` short-circuits),
and the cover-art HTTP response (lines 1139-1152; `none` when building or
sending the request fails, otherwise whether the status was a success plus the
body bytes). -/
structure CoverEnv where
  rg_id : Option String
  http : Option (Bool × List Nat)
deriving DecidableEq, Repr

/-- Does a byte string begin with the JPEG (`FF D8`) or PNG (`89 50 4E`)
magic bytes? (line 1153's test, minus the length guard). -/
def magic_prefix (bytes : List Nat) : Bool :=
  bytes.take 2 == [0xFF, 0xD8] || bytes.take 3 == [0x89, 0x50, 0x4E]

/-- Mirrors `fetch_cover` (lines 1126-1159): `none` unless the MusicBrainz
chain and the HTTP request succeed, the status is a success, the body is
longer than 3 bytes, and it begins with the JPEG or PNG magic. -/
def fetch_cover (env : CoverEnv) : Option (List Nat) :=
  match env.rg_id with
  | none => none
  | some _ =>
    match env.http with
    | none => none
    | some (ok, bytes) =>
      if ok then
        if bytes.length > 3 && magic_prefix bytes then some bytes else none
      else none

-- ───────────────────────────────────────────────────────────────────────────
-- fetch_tracklist failure modes (lines 1161-1201) and mb_get (lines 189-200)
-- ───────────────────────────────────────────────────────────────────────────

/-- The ways `mb_get` / `fetch_tracklist` fail, with the exact messages the
source formats (lines 195, 198, 199, 1173, 1197). -/
inductive MbFailure where
  | requestFailed (e : String)
  | readFailed (e : String)
  | parseFailed (e : String)
  | noRelease
  | noTracks
deriving DecidableEq, Repr

/-- The message `fetch_tracklist` returns for each failure mode. -/
def MbFailure.msg : MbFailure → String
  | .requestFailed e => "MusicBrainz request failed: " ++ e
  | .readFailed e => "Failed to read response: " ++ e
  | .parseFailed e => "Failed to parse JSON: " ++ e
  | .noRelease => "No release found on MusicBrainz"
  | .noTracks => "No tracks found on MusicBrainz"

-- ───────────────────────────────────────────────────────────────────────────
-- process_single_track (lines 765-870)
-- ───────────────────────────────────────────────────────────────────────────

/-- Oracle for one `process_single_track` call: the yt-dlp search result
(line 801), the value of the shared cancel flag at the checkpoint after the
search (line 813), whether the yt-dlp download succeeded (line 827), and the
flag value at the checkpoint after the download (line 839). -/
structure TrackEnv where
  search_result : Option String
  cancel_after_search : Bool
  download_ok : Bool
  cancel_after_download : Bool
deriving DecidableEq, Repr

/-- What one `process_single_track` call did: which external operations it
invoked, whether it bumped the completed counter, whether it stored into the
shared `cancelled` flag, and the final progress event status it emitted
(`none` on the silent cancel exits). -/
structure TrackOutcome where
  searched : Bool
  downloaded : Bool
  tagged : Bool
  completed_inc : Bool
  set_cancelled : Bool
  emitted : Option (String × Option String)
deriving DecidableEq, Repr

/-- Mirrors the control flow of `process_single_track` (lines 765-870): skip
straight to `done` when the destination file exists; otherwise search,
check cancel, download, check cancel, tag, done — with the error/cancel exits
of the source. `fs` is the set of paths that exist on disk. -/
def process_single_track (fs : List String) (album_dir : String)
    (track_idx : Nat) (track_name : String) (env : TrackEnv) : TrackOutcome :=
  if fs.contains (track_filepath album_dir track_idx track_name) then
    { searched := false, downloaded := false, tagged := false,
      completed_inc := true, set_cancelled := false, emitted := some ("done", none) }
  else
    match env.search_result with
    | none =>
      { searched := true, downloaded := false, tagged := false,
        completed_inc := false, set_cancelled := false,
        emitted := some ("error", some "Not found on YouTube") }
    | some _ =>
      if env.cancel_after_search then
        { searched := true, downloaded := false, tagged := false,
          completed_inc := false, set_cancelled := true, emitted := none }
      else if !env.download_ok then
        { searched := true, downloaded := true, tagged := false,
          completed_inc := false, set_cancelled := false,
          emitted := some ("error", some "Download failed") }
      else if env.cancel_after_download then
        { searched := true, downloaded := true, tagged := false,
          completed_inc := false, set_cancelled := true, emitted := none }
      else
        { searched := true, downloaded := true, tagged := true,
          completed_inc := true, set_cancelled := false, emitted := some ("done", none) }

/-- The channel prefill of `download_album` (lines 931-935): every
`(index, trackName)` pair in order. -/
def channel_items (tracks : List String) : List (Nat × String) :=
  tracks.enum

/-- Aggregate a sequence of `process_single_track` runs over channel items:
total completed-counter increments and total MediaFetcher (yt-dlp search or
download) invocations. -/
def run_tracks (fs : List String) (album_dir : String) (envs : Nat → TrackEnv) :
    List (Nat × String) → Nat × Nat
  | [] => (0, 0)
  | (i, name) :: rest =>
    let o := process_single_track fs album_dir i name (envs i)
    let r := run_tracks fs album_dir envs rest
    ((if o.completed_inc then 1 else 0) + r.1,
     ((if o.searched then 1 else 0) + (if o.downloaded then 1 else 0)) + r.2)

-- ───────────────────────────────────────────────────────────────────────────
-- download_album result (lines 878-975)
-- ───────────────────────────────────────────────────────────────────────────

/-- Oracle for one `download_album` call: whether `create_dir_all` failed (and
with which io-error text, line 892), the `fetch_tracklist` outcome if it is
consulted (lines 907-915), and whether any worker observed the shared cancel
flag set at one of its checkpoints (lines 953-957, 813, 839), which makes the
scoped `cancelled` flag true at the final test (line 970). -/
structure AlbumEnv where
  dir_err : Option String
  tracklist : Except MbFailure (List String)
  cover_env : CoverEnv
  cancel_observed : Bool
deriving Repr

/-- Track-list resolution (lines 907-915): use the request's explicit list
when present and non-empty, else the fetched one. -/
def resolve_tracks (req : AlbumRequest) (env : AlbumEnv) : Except MbFailure (List String) :=
  match req.tracks with
  | some t => if t.isEmpty then env.tracklist else .ok t
  | none => env.tracklist

/-- The `Result` of `download_album` (lines 878-975): directory failure and
tracklist failure are hard errors; after the worker scope joins, an observed
cancellation yields `Err("Cancelled")`; otherwise `Ok(())` regardless of
individual track errors. The fetched cover (line 900) never affects the
result. -/
def download_album_result (req : AlbumRequest) (env : AlbumEnv) : Except String Unit :=
  match env.dir_err with
  | some e => .error ("Failed to create directory: " ++ e)
  | none =>
    let _cover := fetch_cover env.cover_env
    match resolve_tracks req env with
    | .error f => .error f.msg
    | .ok _ => if env.cancel_observed then .error "Cancelled" else .ok ()

-- ───────────────────────────────────────────────────────────────────────────
-- One drain-loop iteration, atomically (lines 223-369)
-- ───────────────────────────────────────────────────────────────────────────

/-- One iteration of the drain loop (lines 223-369), with the whole iteration
taken as one atomic step and the external processing outcome supplied by
`pr`.  `none` means the queue was empty and the loop breaks (lines 227-230).
Otherwise the dequeued item is handled: cancel branch (lines 235-255), index
resolution with skip on no match (lines 257-278), marking `downloading`
(lines 286-289), and result recording with its notifications (lines 291-368). -/
def worker_iteration (pr : QueueItem → Except String Unit) (st : InnerState) :
    Option (InnerState × List Event) :=
  match st.pending_queue with
  | [] => none
  | item :: rest =>
    let st1 : InnerState := { st with pending_queue := rest }
    if st1.cancel then some (cancel_branch st1)
    else
      match resolve_index item st1.state.albums with
      | none => some (st1, [])
      | some idx =>
        let total := st1.state.albums.length
        let st2 : InnerState := { st1 with state := mark_downloading idx st1.state }
        match item with
        | .album req =>
          match pr item with
          | .ok _ =>
            some ({ st2 with state := record_album_ok idx st2.state },
              [Event.albumComplete req.artist req.album idx total])
          | .error e =>
            some ({ st2 with state := record_album_err idx e st2.state },
              [Event.downloadError req.artist req.album e,
               Event.albumComplete req.artist req.album idx total])
        | .song song _vid =>
          let prog := Event.progress song.artist (song_label song) 0 1 song.title
            "downloading" none
          match pr item with
          | .ok _ =>
            some ({ st2 with state := record_song_ok idx st2.state },
              [prog, Event.albumComplete song.artist song.title idx total])
          | .error e =>
            some ({ st2 with state := record_song_err idx e st2.state },
              [prog, Event.downloadError song.artist song.title e,
               Event.albumComplete song.artist song.title idx total])

/-- Iterate `worker_iteration` up to `fuel` times, stopping when the queue
empties. -/
def run_worker (pr : QueueItem → Except String Unit) : Nat → InnerState → InnerState
  | 0, st => st
  | fuel + 1, st =>
    match worker_iteration pr st with
    | none => st
    | some (st', _) => run_worker pr fuel st'

/-- The status edges the drain-loop code can take: `pending → downloading`
(mark step), `pending → cancelled` (cancel branch), and
`downloading → complete | error | cancelled`. -/
def allowed_edge (a b : String) : Prop :=
  (a = "pending" ∧ b = "downloading") ∨
  (a = "pending" ∧ b = "cancelled") ∨
  (a = "downloading" ∧ (b = "complete" ∨ b = "error" ∨ b = "cancelled"))

/-- Number of display entries currently in status `pending`. -/
def countPending (st : InnerState) : Nat :=
  st.state.albums.countP (fun a => a.status == "pending")

/-- The worker's final `any_pending` test (lines 378-381). -/
def any_pending (s : DownloadState) : Bool :=
  s.albums.any (fun a => a.status == "pending" || a.status == "downloading")

-- ───────────────────────────────────────────────────────────────────────────
-- Thread-interleaving model of `ensure_worker` (lines 206-391)
-- ───────────────────────────────────────────────────────────────────────────

/-- Program counter of one spawned worker thread, one value per lock-scoped
block of the thread body (lines 222-390). -/
inductive WPC where
  /-- About to pop the queue or break (lines 225-232). -/
  | loopTop
  /-- Item dequeued, about to check the cancel flag (line 235). -/
  | haveItem (item : QueueItem)
  /-- Index resolved (lines 258-278), about to mark `downloading`. -/
  | resolved (item : QueueItem) (idx : Nat)
  /-- `downloading` marked, the blocking external processing is in flight. -/
  | processing (item : QueueItem) (idx : Nat)
  /-- Broke out of the loop, about to clear `worker_running` (lines 372-375). -/
  | exiting
  /-- Flag cleared, about to run the `any_pending` check and terminate
  (lines 377-389). -/
  | finishing
deriving DecidableEq, Repr

/-- Is this program counter inside the part of the thread body during which
`worker_running` is still true (everything before line 374)? -/
def busyRegion : WPC → Bool
  | .finishing => false
  | _ => true

/-- Is this program counter inside the drain loop proper (lines 223-369)? -/
def inDrainLoop : WPC → Bool
  | .exiting => false
  | .finishing => false
  | _ => true

/-- The full `DownloaderStateInner` plus the set of live worker threads. -/
structure Sys where
  inner : InnerState
  worker_running : Bool
  workers : List WPC
deriving DecidableEq, Repr

/-- The initial system: `DownloaderState::default()` and no threads. -/
def initSys : Sys :=
  { inner := initInner, worker_running := false, workers := [] }

/-- Labels distinguishing caller-invoked operations from internal worker
steps, so that traces "without any further start operation" can be singled
out. -/
inductive Lab where
  | startOp
  | songsOp
  | cancelOp
  | clearOp
  | workerOp
deriving DecidableEq, Repr

/-- Small-step transition relation of the downloader: Tauri commands
(labelled by which command ran) interleave with the lock-scoped steps of any
live worker thread.  `ensure_worker`'s test-and-set of `worker_running`
(lines 208-216) is atomic because it happens under the `worker_running`
mutex. -/
inductive Step : Lab → Sys → Sys → Prop where
  /-- `downloader_start` while a worker is marked running: append only
  (lines 552-583, 209-211). -/
  | startRunning (reqs : List AlbumRequest) (s : Sys)
      (h : s.worker_running = true) :
      Step .startOp s { s with inner := downloader_start reqs s.inner }
  /-- `downloader_start` with no worker marked running: append, set the flag,
  reset cancel, spawn the drain loop (lines 212-222). -/
  | startSpawn (reqs : List AlbumRequest) (s : Sys)
      (h : s.worker_running = false) :
      Step .startOp s
        { inner := { downloader_start reqs s.inner with cancel := false },
          worker_running := true,
          workers := s.workers ++ [WPC.loopTop] }
  /-- `downloader_download_songs` while a worker is marked running. -/
  | songsRunning (songs : List SongRequest) (vids : List String) (s : Sys)
      (h : s.worker_running = true) :
      Step .songsOp s { s with inner := downloader_download_songs songs vids s.inner }
  /-- `downloader_download_songs` with no worker marked running. -/
  | songsSpawn (songs : List SongRequest) (vids : List String) (s : Sys)
      (h : s.worker_running = false) :
      Step .songsOp s
        { inner := { downloader_download_songs songs vids s.inner with cancel := false },
          worker_running := true,
          workers := s.workers ++ [WPC.loopTop] }
  /-- `downloader_cancel` (lines 628-633). -/
  | cancelCmd (s : Sys) :
      Step .cancelOp s { s with inner := downloader_cancel s.inner }
  /-- `downloader_clear_finished` (lines 636-644). -/
  | clearCmd (s : Sys) :
      Step .clearOp s { s with inner := downloader_clear_finished s.inner }
  /-- A worker pops the queue head (lines 225-232). -/
  | dequeue (s : Sys) (l₁ l₂ : List WPC) (item : QueueItem) (rest : List QueueItem)
      (hw : s.workers = l₁ ++ WPC.loopTop :: l₂)
      (hq : s.inner.pending_queue = item :: rest) :
      Step .workerOp s
        { s with inner := { s.inner with pending_queue := rest },
                 workers := l₁ ++ WPC.haveItem item :: l₂ }
  /-- A worker finds the queue empty and breaks (lines 227-230). -/
  | breakEmpty (s : Sys) (l₁ l₂ : List WPC)
      (hw : s.workers = l₁ ++ WPC.loopTop :: l₂)
      (hq : s.inner.pending_queue = []) :
      Step .workerOp s { s with workers := l₁ ++ WPC.exiting :: l₂ }
  /-- A worker observes cancel and runs the cancel branch (lines 235-254). -/
  | cancelDrain (s : Sys) (l₁ l₂ : List WPC) (item : QueueItem)
      (hw : s.workers = l₁ ++ WPC.haveItem item :: l₂)
      (hc : s.inner.cancel = true) :
      Step .workerOp s
        { s with inner := (cancel_branch s.inner).1,
                 workers := l₁ ++ WPC.exiting :: l₂ }
  /-- A worker resolves the display index of its item (lines 257-273). -/
  | resolveSome (s : Sys) (l₁ l₂ : List WPC) (item : QueueItem) (idx : Nat)
      (hw : s.workers = l₁ ++ WPC.haveItem item :: l₂)
      (hc : s.inner.cancel = false)
      (hr : resolve_index item s.inner.state.albums = some idx) :
      Step .workerOp s { s with workers := l₁ ++ WPC.resolved item idx :: l₂ }
  /-- No matching entry: skip to the next item (lines 275-278). -/
  | resolveNone (s : Sys) (l₁ l₂ : List WPC) (item : QueueItem)
      (hw : s.workers = l₁ ++ WPC.haveItem item :: l₂)
      (hc : s.inner.cancel = false)
      (hr : resolve_index item s.inner.state.albums = none) :
      Step .workerOp s { s with workers := l₁ ++ WPC.loopTop :: l₂ }
  /-- Mark the resolved entry `downloading` (lines 286-289). -/
  | markStep (s : Sys) (l₁ l₂ : List WPC) (item : QueueItem) (idx : Nat)
      (hw : s.workers = l₁ ++ WPC.resolved item idx :: l₂) :
      Step .workerOp s
        { s with inner := { s.inner with state := mark_downloading idx s.inner.state },
                 workers := l₁ ++ WPC.processing item idx :: l₂ }
  /-- The external processing returns and the result is recorded
  (lines 291-368); `r` is the outcome of `download_album` /
  `download_single_song`. -/
  | recordStep (s : Sys) (l₁ l₂ : List WPC) (item : QueueItem) (idx : Nat)
      (r : Except String Unit)
      (hw : s.workers = l₁ ++ WPC.processing item idx :: l₂) :
      Step .workerOp s
        { s with
          inner := { s.inner with state :=
            match item, r with
            | .album _, .ok _ => record_album_ok idx s.inner.state
            | .album _, .error e => record_album_err idx e s.inner.state
            | .song _ _, .ok _ => record_song_ok idx s.inner.state
            | .song _ _, .error e => record_song_err idx e s.inner.state },
          workers := l₁ ++ WPC.loopTop :: l₂ }
  /-- The worker clears `worker_running` (lines 372-375). -/
  | exitStep (s : Sys) (l₁ l₂ : List WPC)
      (hw : s.workers = l₁ ++ WPC.exiting :: l₂) :
      Step .workerOp s
        { s with worker_running := false, workers := l₁ ++ WPC.finishing :: l₂ }
  /-- The final `any_pending` check finds leftover work: the thread just dies
  (lines 378-390), leaving `is_active` set. -/
  | finishBusy (s : Sys) (l₁ l₂ : List WPC)
      (hw : s.workers = l₁ ++ WPC.finishing :: l₂)
      (hp : any_pending s.inner.state = true) :
      Step .workerOp s { s with workers := l₁ ++ l₂ }
  /-- The final `any_pending` check finds nothing left: clear `is_active`,
  emit all-complete, die (lines 383-389). -/
  | finishIdle (s : Sys) (l₁ l₂ : List WPC)
      (hw : s.workers = l₁ ++ WPC.finishing :: l₂)
      (hp : any_pending s.inner.state = false) :
      Step .workerOp s
        { s with inner := { s.inner with state := { s.inner.state with is_active := false } },
                 workers := l₁ ++ l₂ }

/-- Reachability under any interleaving of commands and worker steps. -/
abbrev Reach (s s' : Sys) : Prop :=
  Relation.ReflTransGen (fun a b => ∃ lab, Step lab a b) s s'

/-- Reachability by steps that are not enqueue ("start") operations: the
caller never re-invokes `downloader_start` / `downloader_download_songs`. -/
abbrev ReachNoStart (s s' : Sys) : Prop :=
  Relation.ReflTransGen
    (fun a b => ∃ lab, lab ≠ Lab.startOp ∧ lab ≠ Lab.songsOp ∧ Step lab a b) s s'

-- ───────────────────────────────────────────────────────────────────────────
-- Per-album bounded worker pool (download_album, lines 926-968)
-- ───────────────────────────────────────────────────────────────────────────

/-- Rust `MAX_CONCURRENT_TRACKS` (line 876). -/
def MAX_CONCURRENT_TRACKS : Nat := 3

/-- Mirrors `update_active_track_status` (lines 734-750): update the status
of the first active-track entry with the given index. -/
def set_active_status (track_idx : Nat) (status : String) :
    List ActiveTrack → List ActiveTrack
  | [] => []
  | a :: rest =>
    if a.track_index == track_idx then { a with status := status } :: rest
    else a :: set_active_status track_idx status rest

/-- Mirrors `remove_active_track` (lines 752-759). -/
def remove_active (track_idx : Nat) (l : List ActiveTrack) : List ActiveTrack :=
  l.filter (fun a => a.track_index != track_idx)

/-- Program counter of one track worker inside `std::thread::scope`
(lines 943-967): either blocked on `recv` (or between tracks), or inside
`process_single_track` with its entry registered in `active_tracks`. -/
inductive TPC where
  | waiting
  | busy (track_idx : Nat)
deriving DecidableEq, Repr

/-- The indices currently being processed, in worker-list order. -/
def busyList : List TPC → List Nat
  | [] => []
  | .waiting :: rest => busyList rest
  | .busy i :: rest => i :: busyList rest

/-- The state of one `download_album` worker scope: the crossbeam channel
contents, the pool threads, and the album's `active_tracks` display list,
`completed` counter (the `AtomicUsize`), scoped `cancelled` flag
(the `AtomicBool`) and the shared cancel flag. -/
structure AlbumRun where
  remaining : List (Nat × String)
  tworkers : List TPC
  active : List ActiveTrack
  completed : Nat
  cancelled : Bool
  shared_cancel : Bool
deriving DecidableEq, Repr

/-- The worker scope as set up by `download_album` (lines 926-944): the
channel preloaded with every `(index, name)` pair and
`min(MAX_CONCURRENT_TRACKS, total_tracks)` workers spawned. -/
def album_run_init (tracks : List String) (shared_cancel : Bool) : AlbumRun :=
  { remaining := channel_items tracks,
    tworkers := List.replicate (Nat.min MAX_CONCURRENT_TRACKS tracks.length) TPC.waiting,
    active := [], completed := 0, cancelled := false, shared_cancel := shared_cancel }

/-- Small-step semantics of the per-album worker pool (lines 943-967 and the
body of `process_single_track`), parameterised by which destination files
exist on disk (`fexists i name` decides line 786's `filepath.exists()`). -/
inductive ARStep (fexists : Nat → String → Bool) : AlbumRun → AlbumRun → Prop where
  /-- `recv` fails: channel empty and sender dropped — the worker exits the
  while-let loop and its thread ends (line 952). -/
  | exitEmpty (r : AlbumRun) (l₁ l₂ : List TPC)
      (hw : r.tworkers = l₁ ++ TPC.waiting :: l₂)
      (hr : r.remaining = []) :
      ARStep fexists r { r with tworkers := l₁ ++ l₂ }
  /-- A worker receives a track but observes cancellation, stores the scoped
  flag and breaks (lines 953-958). -/
  | cancelBreak (r : AlbumRun) (l₁ l₂ : List TPC) (it : Nat × String)
      (rest : List (Nat × String))
      (hw : r.tworkers = l₁ ++ TPC.waiting :: l₂)
      (hr : r.remaining = it :: rest)
      (hc : (r.cancelled || r.shared_cancel) = true) :
      ARStep fexists r
        { r with remaining := rest, cancelled := true, tworkers := l₁ ++ l₂ }
  /-- A worker receives a track whose file already exists: bump the counter
  and report `done` without registering an active entry (lines 786-793). -/
  | skipExists (r : AlbumRun) (l₁ l₂ : List TPC) (i : Nat) (name : String)
      (rest : List (Nat × String))
      (hw : r.tworkers = l₁ ++ TPC.waiting :: l₂)
      (hr : r.remaining = (i, name) :: rest)
      (hc : (r.cancelled || r.shared_cancel) = false)
      (hf : fexists i name = true) :
      ARStep fexists r
        { r with remaining := rest, completed := r.completed + 1 }
  /-- A worker receives a fresh track and registers it as `searching`
  (lines 796-799). -/
  | enterSearch (r : AlbumRun) (l₁ l₂ : List TPC) (i : Nat) (name : String)
      (rest : List (Nat × String))
      (hw : r.tworkers = l₁ ++ TPC.waiting :: l₂)
      (hr : r.remaining = (i, name) :: rest)
      (hc : (r.cancelled || r.shared_cancel) = false)
      (hf : fexists i name = false) :
      ARStep fexists r
        { r with remaining := rest,
                 tworkers := l₁ ++ TPC.busy i :: l₂,
                 active := r.active ++ [{ track_index := i, track_name := name,
                                          status := "searching" }] }
  /-- The track advances to the download stage (lines 820-824). -/
  | stageDownloading (r : AlbumRun) (l₁ l₂ : List TPC) (i : Nat)
      (hw : r.tworkers = l₁ ++ TPC.busy i :: l₂) :
      ARStep fexists r { r with active := set_active_status i "downloading" r.active }
  /-- The track advances to the tagging stage (lines 846-848). -/
  | stageTagging (r : AlbumRun) (l₁ l₂ : List TPC) (i : Nat)
      (hw : r.tworkers = l₁ ++ TPC.busy i :: l₂) :
      ARStep fexists r { r with active := set_active_status i "tagging" r.active }
  /-- The track pipeline reaches a terminal exit — done (`did_complete`,
  lines 863-869), error (lines 802-809, 829-836) or a cancel checkpoint
  (`set_cancelled`, lines 813-817, 839-843): the entry is removed and the
  worker returns to `recv`. -/
  | finishTrack (r : AlbumRun) (l₁ l₂ : List TPC) (i : Nat)
      (did_complete set_cancelled : Bool)
      (hw : r.tworkers = l₁ ++ TPC.busy i :: l₂) :
      ARStep fexists r
        { r with tworkers := l₁ ++ TPC.waiting :: l₂,
                 active := remove_active i r.active,
                 completed := r.completed + (if did_complete then 1 else 0),
                 cancelled := r.cancelled || set_cancelled }
  /-- `downloader_cancel` runs concurrently and sets the shared flag. -/
  | externalCancel (r : AlbumRun) :
      ARStep fexists r { r with shared_cancel := true }

/-- Reachability of the per-album pool. -/
abbrev ReachAR (fexists : Nat → String → Bool) (r r' : AlbumRun) : Prop :=
  Relation.ReflTransGen (ARStep fexists) r r'

/-- Inductive invariant of the per-album pool: the registered active tracks
are exactly (as a multiset) the tracks the busy workers are processing; busy
indices are distinct and disjoint from the channel's still-pending indices;
the pool never grows beyond its spawn size; and every registered entry is in
one of the three in-flight statuses. -/
def ARInv (cap : Nat) (r : AlbumRun) : Prop :=
  List.Perm (r.active.map ActiveTrack.track_index) (busyList r.tworkers) ∧
  (busyList r.tworkers).Nodup ∧
  (r.remaining.map Prod.fst).Nodup ∧
  (∀ x ∈ busyList r.tworkers, x ∉ r.remaining.map Prod.fst) ∧
  r.tworkers.length ≤ cap ∧
  (∀ a ∈ r.active,
    a.status = "searching" ∨ a.status = "downloading" ∨ a.status = "tagging")

-- ───────────────────────────────────────────────────────────────────────────
-- Helper lemmas
-- ───────────────────────────────────────────────────────────────────────────

theorem modifyIdx_length (i : Nat) (f : α → α) (l : List α) :
    (modifyIdx i f l).length = l.length := by
  induction l generalizing i with
  | nil => simp [modifyIdx]
  | cons a as ih =>
    cases i with
    | zero => rfl
    | succ n => simp [modifyIdx, ih]

theorem modifyIdx_get_self (i : Nat) (f : α → α) (l : List α) :
    (modifyIdx i f l)[i]? = l[i]?.map f := by
  induction l generalizing i with
  | nil => simp [modifyIdx]
  | cons a as ih =>
    cases i with
    | zero => simp [modifyIdx]
    | succ n => simpa [modifyIdx] using ih n

theorem modifyIdx_get_ne (i j : Nat) (f : α → α) (l : List α) (h : j ≠ i) :
    (modifyIdx i f l)[j]? = l[j]? := by
  induction l generalizing i j with
  | nil => simp [modifyIdx]
  | cons a as ih =>
    cases i with
    | zero =>
      cases j with
      | zero => exact absurd rfl h
      | succ m => simp [modifyIdx]
    | succ n =>
      cases j with
      | zero => simp [modifyIdx]
      | succ m =>
        simp only [modifyIdx, List.getElem?_cons_succ]
        exact ih n m (fun hc => h (by simp [hc]))

theorem modifyIdx_countP (p : α → Bool) (i : Nat) (f : α → α) (l : List α) (a : α)
    (h : l[i]? = some a) :
    (modifyIdx i f l).countP p + (if p a then 1 else 0) =
      l.countP p + (if p (f a) then 1 else 0) := by
  induction l generalizing i with
  | nil => simp at h
  | cons b bs ih =>
    cases i with
    | zero =>
      simp only [List.getElem?_cons_zero, Option.some.injEq] at h
      subst h
      simp [modifyIdx, List.countP_cons]
      omega
    | succ n =>
      simp only [List.getElem?_cons_succ] at h
      have := ih n h
      simp only [modifyIdx, List.countP_cons]
      omega

theorem position_found (p : α → Bool) (l : List α) (i : Nat)
    (h : position p l = some i) : ∃ a, l[i]? = some a ∧ p a = true := by
  induction l generalizing i with
  | nil => simp [position] at h
  | cons a as ih =>
    by_cases hp : p a
    · simp [position, hp] at h
      exact ⟨a, by simp [← h], hp⟩
    · simp [position, hp] at h
      obtain ⟨j, hj, rfl⟩ := h
      obtain ⟨b, hb, hpb⟩ := ih j hj
      exact ⟨b, by simpa using hb, hpb⟩

theorem resolve_index_found (item : QueueItem) (albums : List AlbumDownloadState)
    (idx : Nat) (h : resolve_index item albums = some idx) :
    ∃ a, albums[idx]? = some a ∧ a.status = "pending" := by
  cases item with
  | album req =>
    obtain ⟨a, ha, hp⟩ := position_found _ _ _ h
    refine ⟨a, ha, ?_⟩
    simp only [Bool.and_eq_true, beq_iff_eq] at hp
    exact hp.2
  | song song vid =>
    obtain ⟨a, ha, hp⟩ := position_found _ _ _ h
    refine ⟨a, ha, ?_⟩
    simp only [Bool.and_eq_true, beq_iff_eq] at hp
    exact hp.2

theorem string_append_ne_empty (a b : String) (h : a.length ≠ 0) : a ++ b ≠ "" := by
  intro hab
  apply h
  have hl := congrArg String.length hab
  rw [String.length_append] at hl
  have h0 : ("" : String).length = 0 := rfl
  omega

/-- Every `fetch_tracklist` / `mb_get` failure message is non-empty. -/
theorem mbfailure_msg_ne_empty (f : MbFailure) : f.msg ≠ "" := by
  cases f with
  | requestFailed e => exact string_append_ne_empty _ _ (by decide)
  | readFailed e => exact string_append_ne_empty _ _ (by decide)
  | parseFailed e => exact string_append_ne_empty _ _ (by decide)
  | noRelease => decide
  | noTracks => decide

/-- Every error `download_album_result` can return is non-empty. -/
theorem download_album_result_err_ne_empty (req : AlbumRequest) (env : AlbumEnv)
    (e : String) (h : download_album_result req env = .error e) : e ≠ "" := by
  unfold download_album_result at h
  cases hd : env.dir_err with
  | some d =>
    rw [hd] at h
    simp only [Except.error.injEq] at h
    exact h ▸ string_append_ne_empty _ _ (by decide)
  | none =>
    rw [hd] at h
    cases ht : resolve_tracks req env with
    | error f =>
      rw [ht] at h
      simp only [Except.error.injEq] at h
      exact h ▸ mbfailure_msg_ne_empty f
    | ok t =>
      rw [ht] at h
      by_cases hc : env.cancel_observed
      · rw [if_pos hc] at h
        simp only [Except.error.injEq] at h
        exact h ▸ (by decide : ("Cancelled" : String) ≠ "")
      · rw [if_neg hc] at h
        exact absurd h (by simp)

-- ───────────────────────────────────────────────────────────────────────────
-- C8: clearFinished
-- ───────────────────────────────────────────────────────────────────────────

/-- **C8** — `downloader_clear_finished` removes exactly the terminal
(complete / error / cancelled) entries, sets `is_active := false` when the
resulting list is empty (and leaves it unchanged otherwise), never touches the
pending queue or the cancel flag, and is idempotent. -/
theorem C8_clear_finished_spec (st : InnerState) :
    (downloader_clear_finished st).state.albums =
      st.state.albums.filter (fun a => !terminalStatus a.status) ∧
    (downloader_clear_finished st).pending_queue = st.pending_queue ∧
    (downloader_clear_finished st).cancel = st.cancel ∧
    ((downloader_clear_finished st).state.albums = [] →
      (downloader_clear_finished st).state.is_active = false) ∧
    ((downloader_clear_finished st).state.albums ≠ [] →
      (downloader_clear_finished st).state.is_active = st.state.is_active) ∧
    downloader_clear_finished (downloader_clear_finished st) =
      downloader_clear_finished st := by
  unfold downloader_clear_finished
  refine ⟨rfl, rfl, rfl, ?_, ?_, ?_⟩
  · intro h
    simp only at h ⊢
    simp [h, List.isEmpty_iff]
  · intro h
    simp only at h ⊢
    rw [if_neg]
    simp only [List.isEmpty_iff]
    exact h
  · simp only [List.filter_filter]
    have hf : ∀ l : List AlbumDownloadState,
        l.filter (fun a => !terminalStatus a.status && !terminalStatus a.status) =
        l.filter (fun a => !terminalStatus a.status) := by
      intro l
      apply List.filter_congr
      intro a _
      cases terminalStatus a.status <;> rfl
    simp only [hf]
    rcases h : (st.state.albums.filter (fun a => !terminalStatus a.status)).isEmpty with _ | _
    · simp [h]
    · simp [h]

/-- Witness for C8: a state holding one `complete` entry with `is_active` set;
clearing empties the list, drops `is_active`, and a second clear is a no-op. -/
theorem C8_clear_finished_witness :
    (downloader_clear_finished
      ⟨⟨true, [⟨"A", "B", "complete", 1, 1, none, []⟩]⟩, false, []⟩).state.is_active = false ∧
    downloader_clear_finished (downloader_clear_finished
      ⟨⟨true, [⟨"A", "B", "complete", 1, 1, none, []⟩]⟩, false, []⟩) =
      downloader_clear_finished
        ⟨⟨true, [⟨"A", "B", "complete", 1, 1, none, []⟩]⟩, false, []⟩ :=
  ⟨(C8_clear_finished_spec ⟨⟨true, [⟨"A", "B", "complete", 1, 1, none, []⟩]⟩, false, []⟩).2.2.2.1
      (by decide),
   (C8_clear_finished_spec ⟨⟨true, [⟨"A", "B", "complete", 1, 1, none, []⟩]⟩, false, []⟩).2.2.2.2.2⟩

-- ───────────────────────────────────────────────────────────────────────────
-- C9: cover-art magic bytes
-- ───────────────────────────────────────────────────────────────────────────

/-- **C9** — `fetch_cover` returns `some bytes` only when the body begins with
the JPEG magic `FF D8` or the PNG magic `89 50 4E` (any other body, failed
request, or non-success status gives `none`, by totality of the function);
and absence of cover art is never an error for the album: the result of
`download_album` does not depend on the cover-fetch outcome at all. -/
theorem C9_fetch_cover_magic :
    (∀ env bs, fetch_cover env = some bs →
      bs.take 2 = [0xFF, 0xD8] ∨ bs.take 3 = [0x89, 0x50, 0x4E]) ∧
    (∀ req env ce, download_album_result req { env with cover_env := ce } =
      download_album_result req env) := by
  constructor
  · intro env bs h
    obtain ⟨rg, http⟩ := env
    cases rg with
    | none => simp [fetch_cover] at h
    | some rgid =>
      cases http with
      | none => simp [fetch_cover] at h
      | some p =>
        obtain ⟨ok, bytes⟩ := p
        unfold fetch_cover at h
        simp only at h
        by_cases hok : ok = true
        · rw [if_pos hok] at h
          by_cases hcond : (decide (bytes.length > 3) && magic_prefix bytes) = true
          · rw [if_pos hcond] at h
            have hbs : bytes = bs := by
              simpa using h
            have hm : magic_prefix bytes = true :=
              (Bool.and_eq_true _ _ ▸ hcond).2
            unfold magic_prefix at hm
            rcases Bool.or_eq_true _ _ ▸ hm with h1 | h1
            · exact Or.inl (hbs ▸ (by simpa using h1))
            · exact Or.inr (hbs ▸ (by simpa using h1))
          · rw [if_neg hcond] at h
            exact absurd h (by simp)
        · rw [if_neg hok] at h
          exact absurd h (by simp)
  · intro req env ce
    rfl

/-- Witness for C9 at a concrete JPEG-prefixed body. -/
theorem C9_fetch_cover_magic_witness :
    fetch_cover ⟨some "rg", some (true, [0xFF, 0xD8, 0, 0])⟩ = some [0xFF, 0xD8, 0, 0] ∧
    ([0xFF, 0xD8, 0, 0].take 2 = [0xFF, 0xD8] ∨
     ([0xFF, 0xD8, 0, 0] : List Nat).take 3 = [0x89, 0x50, 0x4E]) :=
  ⟨by decide,
   C9_fetch_cover_magic.1 ⟨some "rg", some (true, [0xFF, 0xD8, 0, 0])⟩ _ (by decide)⟩

-- ───────────────────────────────────────────────────────────────────────────
-- C6: idempotent skip
-- ───────────────────────────────────────────────────────────────────────────

/-- **C6** — a track whose destination file exists short-circuits to `done`:
the counter is bumped, a `done` event is reported, and no yt-dlp search, no
download and no tag write happen; consequently, running an album all of whose
track files exist yields `completed == totalTracks` and zero MediaFetcher
invocations. -/
theorem process_single_track_skips (fs : List String) (album_dir : String)
    (track_idx : Nat) (track_name : String) (env : TrackEnv)
    (h : fs.contains (track_filepath album_dir track_idx track_name) = true) :
    process_single_track fs album_dir track_idx track_name env =
      { searched := false, downloaded := false, tagged := false,
        completed_inc := true, set_cancelled := false,
        emitted := some ("done", none) } := by
  unfold process_single_track
  rw [if_pos h]

theorem C6_idempotent_skip :
    (∀ fs album_dir track_idx track_name env,
      fs.contains (track_filepath album_dir track_idx track_name) = true →
      process_single_track fs album_dir track_idx track_name env =
        { searched := false, downloaded := false, tagged := false,
          completed_inc := true, set_cancelled := false,
          emitted := some ("done", none) }) ∧
    (∀ fs album_dir envs tracks,
      (∀ p ∈ channel_items tracks,
        fs.contains (track_filepath album_dir p.1 p.2) = true) →
      run_tracks fs album_dir envs (channel_items tracks) = (tracks.length, 0)) := by
  constructor
  · intro fs dir i name env h
    exact process_single_track_skips fs dir i name env h
  · intro fs dir envs tracks h
    have key : ∀ ps : List (Nat × String),
        (∀ p ∈ ps, fs.contains (track_filepath dir p.1 p.2) = true) →
        run_tracks fs dir envs ps = (ps.length, 0) := by
      intro ps
      induction ps with
      | nil => intro _; rfl
      | cons p rest ih =>
        intro hall
        obtain ⟨i, name⟩ := p
        have hp := hall (i, name) (List.mem_cons_self _ _)
        have hrest := ih (fun q hq => hall q (List.mem_cons_of_mem _ hq))
        simp only [run_tracks, process_single_track_skips fs dir i name (envs i) hp, hrest]
        simp [Nat.add_comm]
    rw [key _ h]
    simp [channel_items, List.enum_length]

/-- Witness for C6: an album of two tracks whose files both exist. -/
theorem C6_idempotent_skip_witness :
    run_tracks [track_filepath "/m/A/B" 0 "t1", track_filepath "/m/A/B" 1 "t2"]
      "/m/A/B" (fun _ => ⟨none, false, true, false⟩) (channel_items ["t1", "t2"])
      = (2, 0) :=
  C6_idempotent_skip.2 _ _ _ _ (by decide)

-- ───────────────────────────────────────────────────────────────────────────
-- C4: index stability
-- ───────────────────────────────────────────────────────────────────────────

/-- **C4 counterexample** — an interleaved `downloader_clear_finished` does
shift live entries.  The worker dequeues the item of entry "ArtB" and caches
index 1 (resolved while "ArtB" is `pending`); it marks index 1 `downloading`;
a `downloader_clear_finished` then removes the `complete` entry at index 0,
shifting "ArtB" to index 0 and "ArtC" to index 1; the worker's subsequent
`update_album_completed` through the cached index 1 now mutates the entry of
"ArtC" — not the entry of the item it dequeued — refuting the claim that a
cached index always refers to the dequeued item's entry across an interleaved
clearFinished. -/
theorem C4_counterexample :
    resolve_index (QueueItem.album ⟨"ArtB", "AlbB", "", "", none⟩)
      [⟨"ArtA", "AlbA", "complete", 0, 0, none, []⟩,
       ⟨"ArtB", "AlbB", "pending", 0, 0, none, []⟩,
       ⟨"ArtC", "AlbC", "pending", 0, 0, none, []⟩] = some 1 ∧
    ((update_album_completed
        (downloader_clear_finished
          ⟨mark_downloading 1
            ⟨true, [⟨"ArtA", "AlbA", "complete", 0, 0, none, []⟩,
                    ⟨"ArtB", "AlbB", "pending", 0, 0, none, []⟩,
                    ⟨"ArtC", "AlbC", "pending", 0, 0, none, []⟩]⟩, false, []⟩).state
        1 5).albums.map (fun a => (a.artist, a.completed_tracks)))
      = [("ArtB", 0), ("ArtC", 5)] := by
  refine ⟨rfl, rfl⟩

/-- **C4 amended** — an entry's index is stable as long as no
`downloader_clear_finished` intervenes: enqueues only append (existing
positions unchanged), every worker mutation is a point update that preserves
length and all other positions; `downloader_clear_finished` keeps the
survivors in order (a sublist) but may shift their indices, so a cached index
is only guaranteed to denote the same entry in its absence. -/
theorem C4_index_stability_amended :
    (∀ reqs st i, i < st.state.albums.length →
      (downloader_start reqs st).state.albums[i]? = st.state.albums[i]?) ∧
    (∀ songs vids st i, i < st.state.albums.length →
      (downloader_download_songs songs vids st).state.albums[i]? = st.state.albums[i]?) ∧
    (∀ i f (l : List AlbumDownloadState) j, j ≠ i → (modifyIdx i f l)[j]? = l[j]?) ∧
    (∀ i f (l : List AlbumDownloadState), (modifyIdx i f l).length = l.length) ∧
    (∀ st, List.Sublist (downloader_clear_finished st).state.albums st.state.albums) := by
  refine ⟨?_, ?_, ?_, ?_, ?_⟩
  · intro reqs st i hi
    simp only [downloader_start]
    exact List.getElem?_append_left hi
  · intro songs vids st i hi
    simp only [downloader_download_songs]
    exact List.getElem?_append_left hi
  · intro i f l j h
    exact modifyIdx_get_ne i j f l h
  · intro i f l
    exact modifyIdx_length i f l
  · intro st
    exact List.filter_sublist st.state.albums

/-- Witness for C4 amended: append preserves position 0, and the clear of a
mixed list is a sublist. -/
theorem C4_index_stability_witness :
    (downloader_start [⟨"N", "M", "", "", none⟩]
      ⟨⟨true, [⟨"A", "B", "pending", 0, 0, none, []⟩]⟩, false, []⟩).state.albums[0]? =
      (⟨⟨true, [⟨"A", "B", "pending", 0, 0, none, []⟩]⟩, false,
        []⟩ : InnerState).state.albums[0]? ∧
    List.Sublist
      (downloader_clear_finished
        ⟨⟨true, [⟨"A", "B", "error", 0, 0, some "x", []⟩]⟩, false, []⟩).state.albums
      (⟨⟨true, [⟨"A", "B", "error", 0, 0, some "x", []⟩]⟩, false,
        []⟩ : InnerState).state.albums :=
  ⟨C4_index_stability_amended.1 [⟨"N", "M", "", "", none⟩] _ 0 (by decide),
   C4_index_stability_amended.2.2.2.2 _⟩

-- ───────────────────────────────────────────────────────────────────────────
-- C3: status transitions
-- ───────────────────────────────────────────────────────────────────────────

/-- **C3 counterexample** — the claim forbids a transition from `pending`
directly to a terminal status, but the drain loop's cancel branch performs
exactly that: after `downloader_start` and `downloader_cancel`, the very next
worker iteration moves the still-`pending` entry straight to `cancelled`,
never passing through `downloading`. -/
theorem C3_counterexample :
    ((downloader_cancel
        (downloader_start [⟨"A", "B", "", "", none⟩] initInner)).state.albums.map
      AlbumDownloadState.status = ["pending"]) ∧
    ((worker_iteration (fun _ => .ok ())
        (downloader_cancel (downloader_start [⟨"A", "B", "", "", none⟩] initInner))).map
        (fun r => r.1.state.albums.map AlbumDownloadState.status) = some ["cancelled"]) :=
  ⟨rfl, rfl⟩

/-- **C3 amended** — every status mutation of the drain loop moves the touched
entry along the edge set `pending → downloading`, `pending → cancelled`,
`downloading → complete | error | cancelled` (no transition out of a terminal
status, and `pending → cancelled` is the one direct pending-to-terminal edge,
taken by the cancel branch); enqueues only create `pending` entries; point
updates leave all other entries unchanged; `downloader_clear_finished`
changes no status (every surviving entry is an entry of the old list). -/
theorem C3_status_edges_amended :
    (∀ (st : InnerState) (i : Nat) (a : AlbumDownloadState), st.state.albums[i]? = some a →
      (cancel_branch st).1.state.albums[i]? =
        some (if (a.status == "pending" || a.status == "downloading") = true
              then { a with status := "cancelled" } else a) ∧
      ((a.status = "pending" ∨ a.status = "downloading") →
        allowed_edge a.status "cancelled")) ∧
    (∀ (s : DownloadState) (i : Nat) (a : AlbumDownloadState),
      s.albums[i]? = some a → a.status = "pending" →
      (mark_downloading i s).albums[i]? = some { a with status := "downloading" } ∧
      allowed_edge a.status "downloading") ∧
    (∀ (s : DownloadState) (i : Nat) (a : AlbumDownloadState),
      s.albums[i]? = some a → a.status = "downloading" →
      (record_album_ok i s).albums[i]? = some { a with status := "complete" } ∧
      allowed_edge a.status "complete") ∧
    (∀ (s : DownloadState) (i : Nat) (a : AlbumDownloadState) (e : String),
      s.albums[i]? = some a → a.status = "downloading" →
      (record_album_err i e s).albums[i]? =
        some { a with status := "error", error := some e } ∧
      allowed_edge a.status "error") ∧
    (∀ (s : DownloadState) (i : Nat) (a : AlbumDownloadState),
      s.albums[i]? = some a → a.status = "downloading" →
      (record_song_ok i s).albums[i]? =
        some { a with status := "complete", completed_tracks := 1 } ∧
      allowed_edge a.status "complete") ∧
    (∀ (s : DownloadState) (i : Nat) (a : AlbumDownloadState) (e : String),
      s.albums[i]? = some a → a.status = "downloading" →
      (record_song_err i e s).albums[i]? =
        some { a with status := "error", error := some e } ∧
      allowed_edge a.status "error") ∧
    (∀ i f (l : List AlbumDownloadState) j, j ≠ i → (modifyIdx i f l)[j]? = l[j]?) ∧
    (∀ reqs st a, a ∈ (downloader_start reqs st).state.albums →
      a ∈ st.state.albums ∨ a.status = "pending") ∧
    (∀ songs vids st a, a ∈ (downloader_download_songs songs vids st).state.albums →
      a ∈ st.state.albums ∨ a.status = "pending") ∧
    (∀ st a, a ∈ (downloader_clear_finished st).state.albums → a ∈ st.state.albums) := by
  refine ⟨?_, ?_, ?_, ?_, ?_, ?_, ?_, ?_, ?_, ?_⟩
  · intro st i a h
    constructor
    · simp only [cancel_branch, List.getElem?_map, h]
      rfl
    · intro hs
      rcases hs with hs | hs
      · exact Or.inr (Or.inl ⟨hs, rfl⟩)
      · exact Or.inr (Or.inr ⟨hs, Or.inr (Or.inr rfl)⟩)
  · intro s i a h hp
    exact ⟨by simp [mark_downloading, modifyIdx_get_self, h],
      Or.inl ⟨hp, rfl⟩⟩
  · intro s i a h hp
    exact ⟨by simp [record_album_ok, modifyIdx_get_self, h],
      Or.inr (Or.inr ⟨hp, Or.inl rfl⟩)⟩
  · intro s i a e h hp
    exact ⟨by simp [record_album_err, modifyIdx_get_self, h],
      Or.inr (Or.inr ⟨hp, Or.inr (Or.inl rfl)⟩)⟩
  · intro s i a h hp
    exact ⟨by simp [record_song_ok, modifyIdx_get_self, h],
      Or.inr (Or.inr ⟨hp, Or.inl rfl⟩)⟩
  · intro s i a e h hp
    exact ⟨by simp [record_song_err, modifyIdx_get_self, h],
      Or.inr (Or.inr ⟨hp, Or.inr (Or.inl rfl)⟩)⟩
  · intro i f l j h
    exact modifyIdx_get_ne i j f l h
  · intro reqs st a h
    simp only [downloader_start, List.mem_append] at h
    rcases h with h | h
    · exact Or.inl h
    · obtain ⟨r, _, rfl⟩ := List.mem_map.mp h
      exact Or.inr rfl
  · intro songs vids st a h
    simp only [downloader_download_songs, List.mem_append] at h
    rcases h with h | h
    · exact Or.inl h
    · obtain ⟨r, _, rfl⟩ := List.mem_map.mp h
      exact Or.inr rfl
  · intro st a h
    exact List.mem_of_mem_filter h

/-- Witness for C3 amended: the mark step on a concrete pending entry. -/
theorem C3_status_edges_witness :
    (mark_downloading 0 ⟨true, [⟨"A", "B", "pending", 0, 0, none, []⟩]⟩).albums[0]? =
      some ⟨"A", "B", "downloading", 0, 0, none, []⟩ ∧
    allowed_edge "pending" "downloading" :=
  C3_status_edges_amended.2.1 ⟨true, [⟨"A", "B", "pending", 0, 0, none, []⟩]⟩ 0
    ⟨"A", "B", "pending", 0, 0, none, []⟩ rfl rfl

-- ───────────────────────────────────────────────────────────────────────────
-- C1: cancellation vs error
-- ───────────────────────────────────────────────────────────────────────────

/-- **C1 counterexample** — an album that is in flight (`downloading`) when
cancellation is observed ends with status `error`, not `cancelled`, and an
error notification is emitted for it.  Trace: `downloader_start` enqueues the
album; the worker dequeues it (the loop-top cancel check, line 235, reads
`false`), resolves index 0 and marks it `downloading`; `downloader_cancel`
sets the flag while `download_album` is in flight; a worker checkpoint
observes it (lines 953-957), so `download_album` returns `Err("Cancelled")`
(lines 970-971) and the drain loop records status `error` with message
"Cancelled" and emits the `download-error` notification (lines 298-309) —
refuting "ends with status 'cancelled', never 'error'". -/
theorem C1_counterexample :
    (worker_iteration
        (fun _ => download_album_result ⟨"A", "B", "", "", some ["t"]⟩
          ⟨none, .ok ["t"], ⟨none, none⟩, true⟩)
        (downloader_start [⟨"A", "B", "", "", some ["t"]⟩] initInner)).map
        (fun r => (r.1.state.albums.map AlbumDownloadState.status,
                   r.1.state.albums.map AlbumDownloadState.error, r.2))
      = some (["error"], [some "Cancelled"],
          [Event.downloadError "A" "B" "Cancelled",
           Event.albumComplete "A" "B" 0 1]) := rfl

/-- **C1 amended** — at the drain loop's cancel checkpoint, every album still
`pending` or `downloading` is marked `cancelled` (not `error`), the queue is
drained, `is_active` drops, and exactly the dedicated cancellation
notification is emitted (no error notification); however an album whose
in-flight `download_album` observes cancellation at an internal checkpoint
returns `Err("Cancelled")`, which the loop records as that album's `error`
status with an error notification (see the counterexample). -/
theorem C1_cancellation_amended :
    (∀ (pr : QueueItem → Except String Unit) st item rest,
      st.pending_queue = item :: rest → st.cancel = true →
      worker_iteration pr st =
        some ((cancel_branch { st with pending_queue := rest }).1,
          [Event.cancelledRun]) ∧
      (cancel_branch { st with pending_queue := rest }).1.pending_queue = [] ∧
      (cancel_branch { st with pending_queue := rest }).1.state.is_active = false ∧
      (∀ (i : Nat) (a : AlbumDownloadState), st.state.albums[i]? = some a →
        (cancel_branch { st with pending_queue := rest }).1.state.albums[i]? =
          some (if (a.status == "pending" || a.status == "downloading") = true
                then { a with status := "cancelled" } else a))) ∧
    (∀ req env, env.cancel_observed = true → env.dir_err = none →
      (∃ ts, resolve_tracks req env = .ok ts) →
      download_album_result req env = .error "Cancelled") := by
  constructor
  · intro pr st item rest hq hc
    refine ⟨?_, rfl, rfl, ?_⟩
    · unfold worker_iteration
      rw [hq]
      simp only
      rw [if_pos (show ({ st with pending_queue := rest } : InnerState).cancel = true from hc)]
      rfl
    · intro i a h
      simp only [cancel_branch, List.getElem?_map, h]
      rfl
  · intro req env hc hd ⟨ts, ht⟩
    unfold download_album_result
    rw [hd, ht, if_pos hc]

/-- Witness for C1 amended: the cancel branch fires on a concrete
single-entry state, and a cancellation-observing `download_album` returns
`Err("Cancelled")`. -/
theorem C1_cancellation_witness :
    worker_iteration (fun _ => .ok ())
      ⟨⟨true, [⟨"A", "B", "pending", 0, 0, none, []⟩]⟩, true,
        [QueueItem.album ⟨"A", "B", "", "", none⟩]⟩ =
      some ((cancel_branch
          ⟨⟨true, [⟨"A", "B", "pending", 0, 0, none, []⟩]⟩, true, []⟩).1,
        [Event.cancelledRun]) ∧
    download_album_result ⟨"C", "D", "", "", some ["u"]⟩
        ⟨none, .ok ["u"], ⟨none, none⟩, true⟩ = .error "Cancelled" :=
  ⟨(C1_cancellation_amended.1 (fun _ => .ok ()) _ _ _ rfl rfl).1,
   C1_cancellation_amended.2 ⟨"C", "D", "", "", some ["u"]⟩ _ rfl rfl ⟨["u"], rfl⟩⟩

-- ───────────────────────────────────────────────────────────────────────────
-- C7: failure isolation
-- ───────────────────────────────────────────────────────────────────────────

/-- **C7** — when the processing of a dequeued item fails, the drain loop
records the failure as that item's terminal `error` status together with the
message, emits an error notification, proceeds to the next pending item
(result is `some`, queue advanced to `rest`), and no other entry's state is
touched; and every error `download_album` can produce is a non-empty
message. -/
theorem C7_failure_isolation :
    (∀ (pr : QueueItem → Except String Unit) (st : InnerState) (req : AlbumRequest)
        (rest : List QueueItem) (idx : Nat) (e : String),
      st.pending_queue = QueueItem.album req :: rest →
      st.cancel = false →
      resolve_index (QueueItem.album req) st.state.albums = some idx →
      pr (QueueItem.album req) = .error e →
      worker_iteration pr st =
        some (⟨record_album_err idx e (mark_downloading idx st.state), st.cancel, rest⟩,
          [Event.downloadError req.artist req.album e,
           Event.albumComplete req.artist req.album idx st.state.albums.length]) ∧
      (∀ a : AlbumDownloadState, st.state.albums[idx]? = some a →
        (record_album_err idx e (mark_downloading idx st.state)).albums[idx]? =
          some { a with status := "error", error := some e }) ∧
      (∀ j, j ≠ idx →
        (record_album_err idx e (mark_downloading idx st.state)).albums[j]? =
          st.state.albums[j]?)) ∧
    (∀ (pr : QueueItem → Except String Unit) (st : InnerState) (song : SongRequest)
        (vid : String) (rest : List QueueItem) (idx : Nat) (e : String),
      st.pending_queue = QueueItem.song song vid :: rest →
      st.cancel = false →
      resolve_index (QueueItem.song song vid) st.state.albums = some idx →
      pr (QueueItem.song song vid) = .error e →
      worker_iteration pr st =
        some (⟨record_song_err idx e (mark_downloading idx st.state), st.cancel, rest⟩,
          [Event.progress song.artist (song_label song) 0 1 song.title "downloading" none,
           Event.downloadError song.artist song.title e,
           Event.albumComplete song.artist song.title idx st.state.albums.length]) ∧
      (∀ j, j ≠ idx →
        (record_song_err idx e (mark_downloading idx st.state)).albums[j]? =
          st.state.albums[j]?)) ∧
    (∀ req env e, download_album_result req env = .error e → e ≠ "") := by
  refine ⟨?_, ?_, ?_⟩
  · intro pr st req rest idx e hq hc hr hpr
    refine ⟨?_, ?_, ?_⟩
    · unfold worker_iteration
      rw [hq]
      simp only
      rw [if_neg (show ¬({ st with pending_queue := rest } : InnerState).cancel = true by
        simp [hc])]
      have hr' : resolve_index (QueueItem.album req)
          ({ st with pending_queue := rest } : InnerState).state.albums = some idx := hr
      rw [hr']
      simp only
      rw [hpr]
    · intro a h
      simp only [record_album_err, mark_downloading, modifyIdx_get_self, h]
      rfl
    · intro j hj
      simp only [record_album_err, mark_downloading,
        modifyIdx_get_ne idx j _ _ hj]
  · intro pr st song vid rest idx e hq hc hr hpr
    refine ⟨?_, ?_⟩
    · unfold worker_iteration
      rw [hq]
      simp only
      rw [if_neg (show ¬({ st with pending_queue := rest } : InnerState).cancel = true by
        simp [hc])]
      have hr' : resolve_index (QueueItem.song song vid)
          ({ st with pending_queue := rest } : InnerState).state.albums = some idx := hr
      rw [hr']
      simp only
      rw [hpr]
    · intro j hj
      simp only [record_song_err, mark_downloading,
        modifyIdx_get_ne idx j _ _ hj]
  · intro req env e h
    exact download_album_result_err_ne_empty req env e h

/-- Witness for C7: a concrete metadata failure on a one-album queue. -/
theorem C7_failure_isolation_witness :
    worker_iteration (fun _ => Except.error "No release found on MusicBrainz")
      (downloader_start [⟨"A", "B", "", "", none⟩] initInner) =
      some (⟨record_album_err 0 "No release found on MusicBrainz"
              (mark_downloading 0
                (downloader_start [⟨"A", "B", "", "", none⟩] initInner).state),
             (downloader_start [⟨"A", "B", "", "", none⟩] initInner).cancel, []⟩,
        [Event.downloadError "A" "B" "No release found on MusicBrainz",
         Event.albumComplete "A" "B" 0 1]) ∧
    ("No release found on MusicBrainz" : String) ≠ "" :=
  ⟨(C7_failure_isolation.1 (fun _ => Except.error "No release found on MusicBrainz")
      (downloader_start [⟨"A", "B", "", "", none⟩] initInner)
      ⟨"A", "B", "", "", none⟩ [] 0 "No release found on MusicBrainz"
      rfl rfl rfl rfl).1,
   C7_failure_isolation.2.2 ⟨"A", "B", "", "", none⟩
     ⟨none, .error .noRelease, ⟨none, none⟩, false⟩ _ rfl⟩

-- ───────────────────────────────────────────────────────────────────────────
-- C10: song/video-id zip truncation
-- ───────────────────────────────────────────────────────────────────────────

/-- One drain-loop iteration does not set the cancel flag, consumes exactly
one queue item, and turns at most one `pending` entry non-pending. -/
theorem worker_iteration_bounds (pr : QueueItem → Except String Unit)
    (st st' : InnerState) (evs : List Event)
    (hc : st.cancel = false) (h : worker_iteration pr st = some (st', evs)) :
    st'.cancel = false ∧ st'.pending_queue.length + 1 = st.pending_queue.length ∧
    countPending st ≤ countPending st' + 1 := by
  obtain ⟨⟨act, albums⟩, cancel, queue⟩ := st
  simp only at hc
  subst hc
  cases queue with
  | nil => exact absurd h (by simp [worker_iteration])
  | cons item rest =>
    unfold worker_iteration at h
    simp only at h
    rw [if_neg (by simp)] at h
    cases hr : resolve_index item albums with
    | none =>
      rw [hr] at h
      simp only [Option.some.injEq, Prod.mk.injEq] at h
      obtain ⟨h1, _⟩ := h
      subst h1
      simp [countPending]
    | some idx =>
      rw [hr] at h
      obtain ⟨a, ha, hpend⟩ := resolve_index_found item albums idx hr
      have hcount : ∀ g : AlbumDownloadState → AlbumDownloadState,
          (∀ b : AlbumDownloadState, (g b).status = b.status ∨ (g b).status = "complete" ∨
            (g b).status = "error") →
          albums.countP (fun x => x.status == "pending") ≤
            (modifyIdx idx g (modifyIdx idx
              (fun b => { b with status := "downloading" }) albums)).countP
              (fun x => x.status == "pending") + 1 := by
        intro g hg
        have s1 := modifyIdx_countP (fun x => x.status == "pending") idx
          (fun b => { b with status := "downloading" }) albums a ha
        have ha2 : (modifyIdx idx (fun b => { b with status := "downloading" })
            albums)[idx]? = some { a with status := "downloading" } := by
          rw [modifyIdx_get_self, ha]
          rfl
        have s2 := modifyIdx_countP (fun x => x.status == "pending") idx g
          (modifyIdx idx (fun b => { b with status := "downloading" }) albums)
          { a with status := "downloading" } ha2
        have hgs := hg { a with status := "downloading" }
        have hfalse : ((g { a with status := "downloading" }).status == "pending") = false := by
          rcases hgs with hh | hh | hh <;> simp [hh]
        simp [hpend, hfalse] at s1 s2
        omega
      cases item with
      | album req =>
        cases hp : pr (QueueItem.album req) with
        | ok u =>
          rw [hp] at h
          simp only [Option.some.injEq, Prod.mk.injEq] at h
          obtain ⟨h1, _⟩ := h
          subst h1
          refine ⟨rfl, rfl, ?_⟩
          simp only [countPending, record_album_ok, mark_downloading]
          exact hcount _ (fun b => Or.inr (Or.inl rfl))
        | error e =>
          rw [hp] at h
          simp only [Option.some.injEq, Prod.mk.injEq] at h
          obtain ⟨h1, _⟩ := h
          subst h1
          refine ⟨rfl, rfl, ?_⟩
          simp only [countPending, record_album_err, mark_downloading]
          exact hcount _ (fun b => Or.inr (Or.inr rfl))
      | song song vid =>
        cases hp : pr (QueueItem.song song vid) with
        | ok u =>
          rw [hp] at h
          simp only [Option.some.injEq, Prod.mk.injEq] at h
          obtain ⟨h1, _⟩ := h
          subst h1
          refine ⟨rfl, rfl, ?_⟩
          simp only [countPending, record_song_ok, mark_downloading]
          exact hcount _ (fun b => Or.inr (Or.inl rfl))
        | error e =>
          rw [hp] at h
          simp only [Option.some.injEq, Prod.mk.injEq] at h
          obtain ⟨h1, _⟩ := h
          subst h1
          refine ⟨rfl, rfl, ?_⟩
          simp only [countPending, record_song_err, mark_downloading]
          exact hcount _ (fun b => Or.inr (Or.inr rfl))

/-- Running the worker (without cancellation) loses at most one pending entry
per queue item. -/
theorem run_worker_pending_bound (pr : QueueItem → Except String Unit) :
    ∀ (fuel : Nat) (st : InnerState), st.cancel = false →
      countPending st ≤ countPending (run_worker pr fuel st) + st.pending_queue.length := by
  intro fuel
  induction fuel with
  | zero => intro st _; simp [run_worker]
  | succ n ih =>
    intro st hc
    unfold run_worker
    cases h : worker_iteration pr st with
    | none => simp
    | some p =>
      obtain ⟨st', evs⟩ := p
      obtain ⟨hc', hlen, hcount⟩ := worker_iteration_bounds pr st st' evs hc h
      have := ih st' hc'
      simp only
      omega

/-- **C10** — `downloader_download_songs` appends a `pending` display entry
for every song, but creates queue items only for `songs.zip video_ids`
(positional zip, truncating to the shorter list); each worker iteration
consumes one queue item and un-pends at most one entry, so when more songs
than video ids are supplied, at least `songs.length - video_ids.length`
entries remain `pending` after any amount of worker progress (no worker ever
dequeues them). -/
theorem C10_zip_truncation :
    (∀ songs vids st,
      (downloader_download_songs songs vids st).state.albums =
        st.state.albums ++ songs.map song_entry ∧
      (∀ s ∈ songs, (song_entry s).status = "pending") ∧
      (downloader_download_songs songs vids st).pending_queue =
        st.pending_queue ++ (songs.zip vids).map (fun p => QueueItem.song p.1 p.2) ∧
      (songs.zip vids).length = Nat.min songs.length vids.length) ∧
    (∀ pr fuel st, st.cancel = false →
      countPending st ≤ countPending (run_worker pr fuel st) + st.pending_queue.length) ∧
    (∀ songs vids (pr : QueueItem → Except String Unit) (fuel : Nat),
      vids.length < songs.length →
      songs.length - vids.length ≤
        countPending (run_worker pr fuel (downloader_download_songs songs vids initInner))) := by
  refine ⟨?_, ?_, ?_⟩
  · intro songs vids st
    refine ⟨rfl, fun s _ => rfl, rfl, ?_⟩
    simp [List.length_zip]
  · intro pr fuel st hc
    exact run_worker_pending_bound pr fuel st hc
  · intro songs vids pr fuel hlt
    have hb := run_worker_pending_bound pr fuel
      (downloader_download_songs songs vids initInner) rfl
    have halb : (downloader_download_songs songs vids initInner).state.albums =
        songs.map song_entry := rfl
    have hcp : countPending (downloader_download_songs songs vids initInner) =
        songs.length := by
      simp only [countPending, halb, List.countP_map]
      exact List.countP_eq_length.mpr (fun s _ => rfl)
    have hqq : (downloader_download_songs songs vids initInner).pending_queue =
        (songs.zip vids).map (fun p => QueueItem.song p.1 p.2) := rfl
    have hq : (downloader_download_songs songs vids initInner).pending_queue.length =
        vids.length := by
      rw [hqq, List.length_map, List.length_zip]
      omega
    rw [hcp, hq] at hb
    omega

/-- Witness for C10: two songs, one video id — one entry stays pending after
a full worker run. -/
theorem C10_zip_truncation_witness :
    ([(⟨"t1", "a", "", "", "", none⟩ : SongRequest),
      ⟨"t2", "a", "", "", "", none⟩] : List SongRequest).length - ["v1"].length ≤
    countPending (run_worker (fun _ => .ok ()) 5
      (downloader_download_songs
        [⟨"t1", "a", "", "", "", none⟩, ⟨"t2", "a", "", "", "", none⟩]
        ["v1"] initInner)) :=
  C10_zip_truncation.2.2
    [⟨"t1", "a", "", "", "", none⟩, ⟨"t2", "a", "", "", "", none⟩]
    ["v1"] (fun _ => .ok ()) 5 (by decide)

-- ───────────────────────────────────────────────────────────────────────────
-- C2: singleton drain loop
-- ───────────────────────────────────────────────────────────────────────────

theorem countP_le_of_imp (l : List α) (p q : α → Bool)
    (h : ∀ a, p a = true → q a = true) : l.countP p ≤ l.countP q := by
  induction l with
  | nil => simp
  | cons a as ih =>
    simp only [List.countP_cons]
    by_cases hp : p a = true
    · rw [h a hp]
      simp [hp]
      omega
    · simp at hp
      simp [hp]
      omega

/-- The `worker_running` flag counts exactly the threads that are anywhere
before line 374 (the drain loop plus the about-to-clear-the-flag point); this
is the inductive invariant behind the singleton-drain-loop guarantee. -/
theorem sys_busy_step (s s' : Sys) (lab : Lab) (hstep : Step lab s s')
    (hinv : s.workers.countP busyRegion = if s.worker_running then 1 else 0) :
    s'.workers.countP busyRegion = if s'.worker_running then 1 else 0 := by
  cases hstep with
  | startRunning reqs s h => simpa using hinv
  | startSpawn reqs s h =>
    rw [h] at hinv
    simp only [List.countP_append] at *
    simp [hinv, List.countP_cons, busyRegion]
  | songsRunning songs vids s h => simpa using hinv
  | songsSpawn songs vids s h =>
    rw [h] at hinv
    simp only [List.countP_append] at *
    simp [hinv, List.countP_cons, busyRegion]
  | cancelCmd s => simpa using hinv
  | clearCmd s => simpa using hinv
  | dequeue s l₁ l₂ item rest hw hq =>
    rw [hw] at hinv
    simp only [List.countP_append, List.countP_cons, busyRegion] at hinv ⊢
    simpa using hinv
  | breakEmpty s l₁ l₂ hw hq =>
    rw [hw] at hinv
    simp only [List.countP_append, List.countP_cons, busyRegion] at hinv ⊢
    simpa using hinv
  | cancelDrain s l₁ l₂ item hw hc =>
    rw [hw] at hinv
    simp only [List.countP_append, List.countP_cons, busyRegion] at hinv ⊢
    simpa using hinv
  | resolveSome s l₁ l₂ item idx hw hc hr =>
    rw [hw] at hinv
    simp only [List.countP_append, List.countP_cons, busyRegion] at hinv ⊢
    simpa using hinv
  | resolveNone s l₁ l₂ item hw hc hr =>
    rw [hw] at hinv
    simp only [List.countP_append, List.countP_cons, busyRegion] at hinv ⊢
    simpa using hinv
  | markStep s l₁ l₂ item idx hw =>
    rw [hw] at hinv
    simp only [List.countP_append, List.countP_cons, busyRegion] at hinv ⊢
    simpa using hinv
  | recordStep s l₁ l₂ item idx r hw =>
    rw [hw] at hinv
    simp only [List.countP_append, List.countP_cons, busyRegion] at hinv ⊢
    simpa using hinv
  | exitStep s l₁ l₂ hw =>
    rw [hw] at hinv
    simp only [List.countP_append, List.countP_cons, busyRegion] at hinv ⊢
    cases hrun : s.worker_running with
    | false => rw [hrun] at hinv; simp at hinv
    | true =>
      rw [hrun] at hinv
      simp only [if_pos rfl] at hinv
      simp only [if_neg Bool.false_ne_true]
      omega
  | finishBusy s l₁ l₂ hw hp =>
    rw [hw] at hinv
    simp only [List.countP_append, List.countP_cons, busyRegion] at hinv ⊢
    simpa using hinv
  | finishIdle s l₁ l₂ hw hp =>
    rw [hw] at hinv
    simp only [List.countP_append, List.countP_cons, busyRegion] at hinv ⊢
    simpa using hinv

theorem sys_busy_reachable (s : Sys) (h : Reach initSys s) :
    s.workers.countP busyRegion = if s.worker_running then 1 else 0 := by
  induction h with
  | refl => rfl
  | tail hsteps hstep ih =>
    obtain ⟨lab, hs⟩ := hstep
    exact sys_busy_step _ _ lab hs ih

/-- With no live thread, no step other than a fresh enqueue ever touches the
pending queue or spawns a worker: a stranded queue stays stranded. -/
theorem stranded_stays_stranded (s s' : Sys) (hw : s.workers = [])
    (hr : ReachNoStart s s') :
    s'.inner.pending_queue = s.inner.pending_queue ∧ s'.workers = [] := by
  induction hr with
  | refl => exact ⟨rfl, hw⟩
  | tail hsteps hstep ih =>
    obtain ⟨ihq, ihw⟩ := ih
    obtain ⟨lab, hne1, hne2, hs⟩ := hstep
    cases hs with
    | startRunning reqs b h => exact absurd rfl hne1
    | startSpawn reqs b h => exact absurd rfl hne1
    | songsRunning songs vids b h => exact absurd rfl hne2
    | songsSpawn songs vids b h => exact absurd rfl hne2
    | cancelCmd b => exact ⟨ihq, ihw⟩
    | clearCmd b => exact ⟨ihq, ihw⟩
    | dequeue b l₁ l₂ item rest hbw hq => rw [ihw] at hbw; simp at hbw
    | breakEmpty b l₁ l₂ hbw hq => rw [ihw] at hbw; simp at hbw
    | cancelDrain b l₁ l₂ item hbw hc => rw [ihw] at hbw; simp at hbw
    | resolveSome b l₁ l₂ item idx hbw hc hrr => rw [ihw] at hbw; simp at hbw
    | resolveNone b l₁ l₂ item hbw hc hrr => rw [ihw] at hbw; simp at hbw
    | markStep b l₁ l₂ item idx hbw => rw [ihw] at hbw; simp at hbw
    | recordStep b l₁ l₂ item idx r hbw => rw [ihw] at hbw; simp at hbw
    | exitStep b l₁ l₂ hbw => rw [ihw] at hbw; simp at hbw
    | finishBusy b l₁ l₂ hbw hp => rw [ihw] at hbw; simp at hbw
    | finishIdle b l₁ l₂ hbw hp => rw [ihw] at hbw; simp at hbw

/-- **C2 counterexample** — the eventual-pickup half of the claim fails.
Reachable trace: `downloader_start` spawns the worker; the worker processes
the first album to `complete` and finds the queue empty, breaking out of the
drain loop; **before** it clears `worker_running`, a second `downloader_start`
appends an album and, seeing `worker_running == true`, spawns nothing
(lines 209-211); the worker then clears the flag, sees `any_pending` and dies.
The resulting state has a non-empty pending queue, a `pending` display entry,
and no live worker thread — and by `stranded_stays_stranded`, no continuation
that avoids further start operations ever dequeues the item, refuting
"items appended while the worker runs are eventually dequeued and processed
without the caller invoking any further start operation". -/
theorem C2_counterexample :
    Reach initSys
      ⟨⟨⟨true, [⟨"A", "B", "complete", 0, 0, none, []⟩,
                ⟨"C", "D", "pending", 0, 0, none, []⟩]⟩,
        false, [QueueItem.album ⟨"C", "D", "", "", none⟩]⟩, false, []⟩ ∧
    (⟨⟨⟨true, [⟨"A", "B", "complete", 0, 0, none, []⟩,
               ⟨"C", "D", "pending", 0, 0, none, []⟩]⟩,
       false, [QueueItem.album ⟨"C", "D", "", "", none⟩]⟩, false,
      ([] : List WPC)⟩ : Sys).workers = [] ∧
    (⟨⟨⟨true, [⟨"A", "B", "complete", 0, 0, none, []⟩,
               ⟨"C", "D", "pending", 0, 0, none, []⟩]⟩,
       false, [QueueItem.album ⟨"C", "D", "", "", none⟩]⟩, false,
      ([] : List WPC)⟩ : Sys).inner.pending_queue ≠ [] := by
  refine ⟨?_, rfl, by simp⟩
  exact Relation.ReflTransGen.tail (Relation.ReflTransGen.tail
    (Relation.ReflTransGen.tail (Relation.ReflTransGen.tail
    (Relation.ReflTransGen.tail (Relation.ReflTransGen.tail
    (Relation.ReflTransGen.tail (Relation.ReflTransGen.tail
      (Relation.ReflTransGen.single
        ⟨.startOp, Step.startSpawn [⟨"A", "B", "", "", none⟩] initSys rfl⟩)
      ⟨.workerOp, Step.dequeue _ [] [] (QueueItem.album ⟨"A", "B", "", "", none⟩) [] rfl rfl⟩)
      ⟨.workerOp, Step.resolveSome _ [] [] (QueueItem.album ⟨"A", "B", "", "", none⟩) 0
        rfl rfl rfl⟩)
      ⟨.workerOp, Step.markStep _ [] [] (QueueItem.album ⟨"A", "B", "", "", none⟩) 0 rfl⟩)
      ⟨.workerOp, Step.recordStep _ [] [] (QueueItem.album ⟨"A", "B", "", "", none⟩) 0
        (.ok ()) rfl⟩)
      ⟨.workerOp, Step.breakEmpty _ [] [] rfl rfl⟩)
      ⟨.startOp, Step.startRunning [⟨"C", "D", "", "", none⟩] _ rfl⟩)
      ⟨.workerOp, Step.exitStep _ [] [] rfl⟩)
      ⟨.workerOp, Step.finishBusy _ [] [] rfl rfl⟩

/-- **C2 amended** — the mutual-exclusion half holds: in every reachable
state at most one thread is inside the drain loop (`ensure_worker`'s
test-and-set of `worker_running` under its mutex guarantees this), and the
flag counts exactly the threads that are before the flag-clearing point.
The eventual-pickup half fails in the window between the worker's final
empty-queue check and its clearing of `worker_running` (see the
counterexample); items appended in that window are stranded until some later
enqueue call happens to see the cleared flag. -/
theorem C2_single_drain_loop_amended :
    (∀ s, Reach initSys s → s.workers.countP inDrainLoop ≤ 1) ∧
    (∀ s, Reach initSys s →
      s.workers.countP busyRegion = if s.worker_running then 1 else 0) := by
  constructor
  · intro s h
    have hb := sys_busy_reachable s h
    have hle := countP_le_of_imp s.workers inDrainLoop busyRegion
      (fun pc hpc => by cases pc <;> simp_all [inDrainLoop, busyRegion])
    rw [hb] at hle
    exact le_trans hle (by split <;> simp)
  · intro s h
    exact sys_busy_reachable s h

/-- Witness for C2 amended at the initial state. -/
theorem C2_single_drain_loop_witness :
    initSys.workers.countP inDrainLoop ≤ 1 :=
  C2_single_drain_loop_amended.1 initSys Relation.ReflTransGen.refl

-- ───────────────────────────────────────────────────────────────────────────
-- C5: bounded per-album parallelism
-- ───────────────────────────────────────────────────────────────────────────

theorem busyList_append (l₁ l₂ : List TPC) :
    busyList (l₁ ++ l₂) = busyList l₁ ++ busyList l₂ := by
  induction l₁ with
  | nil => rfl
  | cons pc rest ih => cases pc <;> simp [busyList, ih]

theorem busyList_waiting (l₁ l₂ : List TPC) :
    busyList (l₁ ++ TPC.waiting :: l₂) = busyList l₁ ++ busyList l₂ := by
  rw [busyList_append]; rfl

theorem busyList_busy (l₁ l₂ : List TPC) (i : Nat) :
    busyList (l₁ ++ TPC.busy i :: l₂) = busyList l₁ ++ i :: busyList l₂ := by
  rw [busyList_append]; rfl

theorem busyList_replicate_waiting (n : Nat) :
    busyList (List.replicate n TPC.waiting) = [] := by
  induction n with
  | zero => rfl
  | succ k ih => rw [List.replicate_succ]; simpa [busyList] using ih

theorem set_active_status_map_index (i : Nat) (st : String) (l : List ActiveTrack) :
    (set_active_status i st l).map ActiveTrack.track_index =
      l.map ActiveTrack.track_index := by
  induction l with
  | nil => rfl
  | cons a rest ih =>
    by_cases h : (a.track_index == i) = true
    · simp only [set_active_status, if_pos h, List.map_cons]
    · simp only [set_active_status, if_neg h, List.map_cons, ih]

theorem set_active_status_status (i : Nat) (st : String) (l : List ActiveTrack) :
    ∀ b ∈ set_active_status i st l, b.status = st ∨ b ∈ l := by
  induction l with
  | nil => intro b hb; simp [set_active_status] at hb
  | cons a rest ih =>
    intro b hb
    by_cases h : (a.track_index == i) = true
    · rw [set_active_status, if_pos h] at hb
      rcases List.mem_cons.mp hb with rfl | hb
      · exact Or.inl rfl
      · exact Or.inr (List.mem_cons_of_mem _ hb)
    · rw [set_active_status, if_neg h] at hb
      rcases List.mem_cons.mp hb with rfl | hb
      · exact Or.inr (List.mem_cons_self _ _)
      · rcases ih b hb with hs | hm
        · exact Or.inl hs
        · exact Or.inr (List.mem_cons_of_mem _ hm)

theorem remove_active_map (i : Nat) (l : List ActiveTrack) :
    (remove_active i l).map ActiveTrack.track_index =
      (l.map ActiveTrack.track_index).filter (fun x => x != i) := by
  induction l with
  | nil => rfl
  | cons a rest ih =>
    simp only [remove_active, List.map_cons, List.filter_cons] at ih ⊢
    by_cases h : (a.track_index != i) = true
    · rw [if_pos h, if_pos h, List.map_cons, ih]
    · rw [if_neg h, if_neg h, ih]

/-- Each pool step preserves the invariant. -/
theorem ar_inv_step (fexists : Nat → String → Bool) (cap : Nat) (r r' : AlbumRun)
    (hstep : ARStep fexists r r') (hinv : ARInv cap r) : ARInv cap r' := by
  obtain ⟨hperm, hnodupB, hnodupR, hdisj, hlen, hstat⟩ := hinv
  cases hstep with
  | exitEmpty l₁ l₂ hw hrem =>
    rw [hw, busyList_waiting] at hperm hnodupB hdisj
    rw [hw] at hlen
    refine ⟨?_, ?_, hnodupR, ?_, ?_, hstat⟩
    · simpa [busyList_append] using hperm
    · simpa [busyList_append] using hnodupB
    · simpa [busyList_append] using hdisj
    · simp only [List.length_append, List.length_cons] at hlen ⊢
      omega
  | cancelBreak l₁ l₂ it rest hw hrem hc =>
    rw [hw, busyList_waiting] at hperm hnodupB hdisj
    rw [hw] at hlen
    rw [hrem, List.map_cons] at hnodupR hdisj
    refine ⟨?_, ?_, ?_, ?_, ?_, hstat⟩
    · simpa [busyList_append] using hperm
    · simpa [busyList_append] using hnodupB
    · exact (List.nodup_cons.mp hnodupR).2
    · intro x hx
      have hx' : x ∈ busyList l₁ ++ busyList l₂ := by
        simpa [busyList_append] using hx
      intro hxr
      exact hdisj x hx' (List.mem_cons_of_mem _ hxr)
    · simp only [List.length_append, List.length_cons] at hlen ⊢
      omega
  | skipExists l₁ l₂ i name rest hw hrem hc hf =>
    rw [hrem, List.map_cons] at hnodupR hdisj
    refine ⟨hperm, hnodupB, (List.nodup_cons.mp hnodupR).2, ?_, hlen, hstat⟩
    intro x hx hxr
    exact hdisj x hx (List.mem_cons_of_mem _ hxr)
  | enterSearch l₁ l₂ i name rest hw hrem hc hf =>
    rw [hw, busyList_waiting] at hperm hnodupB hdisj
    rw [hw] at hlen
    rw [hrem, List.map_cons] at hnodupR hdisj
    have hiB : i ∉ busyList l₁ ++ busyList l₂ := by
      intro hi
      exact hdisj i hi (List.mem_cons_self _ _)
    have hiR : i ∉ rest.map Prod.fst := (List.nodup_cons.mp hnodupR).1
    refine ⟨?_, ?_, (List.nodup_cons.mp hnodupR).2, ?_, ?_, ?_⟩
    · rw [busyList_busy]
      simp only [List.map_append, List.map_cons, List.map_nil]
      exact ((List.perm_append_singleton _ _).trans (hperm.cons i)).trans
        List.perm_middle.symm
    · rw [busyList_busy]
      exact List.nodup_middle.mpr (List.nodup_cons.mpr ⟨hiB, hnodupB⟩)
    · intro x hx
      rw [busyList_busy] at hx
      rcases List.mem_append.mp hx with hx1 | hx2
      · intro hxr
        exact hdisj x (List.mem_append.mpr (Or.inl hx1))
          (List.mem_cons_of_mem _ hxr)
      · rcases List.mem_cons.mp hx2 with rfl | hx3
        · exact hiR
        · intro hxr
          exact hdisj x (List.mem_append.mpr (Or.inr hx3))
            (List.mem_cons_of_mem _ hxr)
    · simp only [List.length_append, List.length_cons] at hlen ⊢
      omega
    · intro b hb
      rcases List.mem_append.mp hb with hb1 | hb2
      · exact hstat b hb1
      · rcases List.mem_cons.mp hb2 with rfl | hb3
        · exact Or.inl rfl
        · simp at hb3
  | stageDownloading l₁ l₂ i hw =>
    refine ⟨?_, hnodupB, hnodupR, hdisj, hlen, ?_⟩
    · rw [set_active_status_map_index]
      exact hperm
    · intro b hb
      rcases set_active_status_status i "downloading" r.active b hb with hs | hm
      · exact Or.inr (Or.inl hs)
      · exact hstat b hm
  | stageTagging l₁ l₂ i hw =>
    refine ⟨?_, hnodupB, hnodupR, hdisj, hlen, ?_⟩
    · rw [set_active_status_map_index]
      exact hperm
    · intro b hb
      rcases set_active_status_status i "tagging" r.active b hb with hs | hm
      · exact Or.inr (Or.inr hs)
      · exact hstat b hm
  | finishTrack l₁ l₂ i did_complete set_cancelled hw =>
    rw [hw, busyList_busy] at hperm hnodupB hdisj
    rw [hw] at hlen
    have hmid := List.nodup_cons.mp (List.nodup_middle.mp hnodupB)
    have hiB : i ∉ busyList l₁ ++ busyList l₂ := hmid.1
    refine ⟨?_, ?_, hnodupR, ?_, ?_, ?_⟩
    · rw [busyList_waiting, remove_active_map]
      have hf := hperm.filter (fun x => x != i)
      have : (busyList l₁ ++ i :: busyList l₂).filter (fun x => x != i) =
          busyList l₁ ++ busyList l₂ := by
        rw [List.filter_append, List.filter_cons]
        rw [if_neg (by simp)]
        rw [List.filter_eq_self.mpr, List.filter_eq_self.mpr]
        · intro x hx
          simp only [bne_iff_ne, ne_eq]
          intro hxi
          exact hiB (hxi ▸ List.mem_append.mpr (Or.inr hx))
        · intro x hx
          simp only [bne_iff_ne, ne_eq]
          intro hxi
          exact hiB (hxi ▸ List.mem_append.mpr (Or.inl hx))
      rw [this] at hf
      exact hf
    · rw [busyList_waiting]
      exact hmid.2
    · intro x hx
      rw [busyList_waiting] at hx
      rcases List.mem_append.mp hx with hx1 | hx2
      · exact hdisj x (List.mem_append.mpr (Or.inl hx1))
      · exact hdisj x (List.mem_append.mpr (Or.inr (List.mem_cons_of_mem _ hx2)))
    · simp only [List.length_append, List.length_cons] at hlen ⊢
      omega
    · intro b hb
      exact hstat b (List.mem_of_mem_filter hb)
  | externalCancel =>
    exact ⟨hperm, hnodupB, hnodupR, hdisj, hlen, hstat⟩

/-- The invariant holds in every state reachable from the pool's start. -/
theorem ar_inv_reachable (fexists : Nat → String → Bool) (tracks : List String)
    (sc : Bool) (r : AlbumRun)
    (h : ReachAR fexists (album_run_init tracks sc) r) :
    ARInv (Nat.min MAX_CONCURRENT_TRACKS tracks.length) r := by
  induction h with
  | refl =>
    refine ⟨?_, ?_, ?_, ?_, ?_, ?_⟩
    · simp [album_run_init, busyList_replicate_waiting]
    · simp [album_run_init, busyList_replicate_waiting]
    · simp only [album_run_init, channel_items, List.enum_map_fst]
      exact List.nodup_range _
    · intro x hx
      simp [album_run_init, busyList_replicate_waiting] at hx
    · simp [album_run_init]
    · intro a ha
      simp [album_run_init] at ha
  | tail hs hstep ih =>
    exact ar_inv_step fexists _ _ _ hstep ih

theorem busyList_length_le (l : List TPC) : (busyList l).length ≤ l.length := by
  induction l with
  | nil => simp [busyList]
  | cons pc rest ih =>
    cases pc <;> simp [busyList] <;> omega

/-- **C5** — `download_album` spawns exactly `min(3, N)` track workers for an
album of `N` tracks, and in every reachable state of the pool at most
`min(3, N)` tracks are registered in `active_tracks` (all of them in status
searching / downloading / tagging). -/
theorem C5_bounded_parallelism :
    (∀ tracks sc, (album_run_init tracks sc).tworkers.length =
      Nat.min MAX_CONCURRENT_TRACKS tracks.length) ∧
    (∀ (fexists : Nat → String → Bool) (tracks : List String) (sc : Bool)
        (r : AlbumRun), ReachAR fexists (album_run_init tracks sc) r →
      r.active.length ≤ Nat.min MAX_CONCURRENT_TRACKS tracks.length ∧
      (∀ a ∈ r.active,
        a.status = "searching" ∨ a.status = "downloading" ∨ a.status = "tagging")) := by
  constructor
  · intro tracks sc
    simp [album_run_init]
  · intro fexists tracks sc r h
    obtain ⟨hperm, _, _, _, hlen, hstat⟩ := ar_inv_reachable fexists tracks sc r h
    refine ⟨?_, hstat⟩
    have h1 : r.active.length = (r.active.map ActiveTrack.track_index).length := by
      simp
    rw [h1, hperm.length_eq]
    exact le_trans (busyList_length_le r.tworkers) hlen

/-- Witness for C5: the freshly spawned pool for a one-track album. -/
theorem C5_bounded_parallelism_witness :
    (album_run_init ["t"] false).active.length ≤
      Nat.min MAX_CONCURRENT_TRACKS (["t"] : List String).length ∧
    (∀ a ∈ (album_run_init ["t"] false).active,
      a.status = "searching" ∨ a.status = "downloading" ∨ a.status = "tagging") :=
  C5_bounded_parallelism.2 (fun _ _ => false) ["t"] false
    (album_run_init ["t"] false) Relation.ReflTransGen.refl

end GuteMusik
